import Mathlib

/-!
Shallow embedding of the batch-translation engine of the repository
(src/core/translation_executor.py, src/main.py, src/config/constants.py,
src/builders/pipeline_builder.py), together with theorems settling the
spec claims about it.

Conventions of the embedding:
* Python dicts of string keys are association lists `List (String × String)`.
* A backend "response" dict that is empty or lacks a "messages" key is
  modelled as `none`; otherwise it is `some` of its message list.
* Machine concurrency is sequentialised: the shutdown flag is a monotone
  predicate over a global counter of flag checks, so "the flag becomes set
  at some point during the run and stays set" is `flagAt (some t)`.
* Exceptions are explicit constructors of outcome types; every embedded
  function is total, mirroring the source's catch-all handlers.
-/

namespace LangGraphTranslator

/-- Rejection phrases from AppConstants.REPETITIVE_PATTERNS
(src/config/constants.py lines 31-38). -/
def REPETITIVE_PATTERNS : List String :=
  [ "a proper translation would be"
  , "should be a statement matching"
  , "is not appropriate"
  , "let me check"
  , "i need to"
  , "looking at the"
  ]

/-- Tool-chatter phrases from AppConstants.TOOL_PATTERNS
(src/config/constants.py lines 40-46). -/
def TOOL_PATTERNS : List String :=
  [ "calling tool"
  , "using tool"
  , "tool call"
  , "invoke"
  , "executing"
  ]

/-- One entry of a message's tool_calls list. The Python dict
call.get("args", {}) is modelled by keeping only the payload the code
ever reads: args["translations"] when that key is present. -/
structure ToolCall where
  name : String
  translationsArg : Option (List (String × String))
deriving DecidableEq, Repr

/-- One message of an agent response. usage holds usage_metadata's
(input_tokens, output_tokens) when the attribute is present and truthy. -/
structure Message where
  tool_calls : List ToolCall
  content : String
  usage : Option (Nat × Nat)
deriving DecidableEq, Repr

/-- An agent response dict: none models an empty dict or one without a
"messages" key; some msgs models a dict whose "messages" value is msgs. -/
abbrev Response : Type := Option (List Message)

/-- Python str.lower() as a character list: lower-case every character. -/
def lowerChars (s : String) : List Char := s.toList.map Char.toLower

/-- Python str.strip(): drop leading and trailing whitespace. -/
def pyStrip (s : String) : String :=
  ⟨((s.toList.dropWhile Char.isWhitespace).reverse.dropWhile
      Char.isWhitespace).reverse⟩

/-- Case-insensitive substring test: Python "p.lower() in content.lower()". -/
def substrLower (p content : String) : Bool :=
  decide (lowerChars p <:+: lowerChars content)

/-- TranslationExecutor.is_valid_response
(src/core/translation_executor.py lines 141-179). Accessing messages[-1]
of an empty list raises in Python and is caught, yielding False. -/
def is_valid_response (response : Response) : Bool :=
  match response with
  | none => false
  | some msgs =>
    match msgs.getLast? with
    | none => false
    | some last =>
      if last.tool_calls ≠ [] then true
      else if last.content = "" ∨ (pyStrip last.content).length < 5 then false
      else if REPETITIVE_PATTERNS.any (fun p => substrLower p last.content) then false
      else if TOOL_PATTERNS.any (fun p => substrLower p last.content) then false
      else true

/-- TranslationExecutor.extract_translations
(src/core/translation_executor.py lines 97-118): first message carrying a
nonempty tool_calls list with a call named update_translations_in_memory
whose args contain "translations" yields that mapping; otherwise None. -/
def extract_translations (response : Response) : Option (List (String × String)) :=
  match response with
  | none => none
  | some msgs =>
    msgs.findSome? fun msg =>
      if msg.tool_calls ≠ [] then
        msg.tool_calls.findSome? fun call =>
          if call.name = "update_translations_in_memory" then
            call.translationsArg
          else none
      else none

/-- TranslationExecutor.extract_token_usage
(src/core/translation_executor.py lines 120-139): scans messages in
reverse for the first one with usage metadata, else (0, 0). -/
def extract_token_usage (response : Response) : Nat × Nat :=
  match response with
  | none => (0, 0)
  | some msgs => ((msgs.reverse.findSome? fun msg => msg.usage).getD (0, 0))

/-- Outcome of one awaited backend invocation inside execute_async:
either the agent returned a response dict, or the overall timeout fired,
or some exception was raised by the runtime. -/
inductive BackendOutcome where
  | ok (response : Response)
  | timeout
  | exn
deriving Repr

/-- Result tuple of TranslationExecutor.execute_async:
(success, translations, input_tokens, output_tokens). -/
structure ExecResult where
  success : Bool
  translations : List (String × String)
  input_tokens : Nat
  output_tokens : Nat
deriving DecidableEq, Repr

/-- TranslationExecutor.execute_async
(src/core/translation_executor.py lines 181-238). ko_text, context and
target_langs only shape the prompt sent to the agent; the agent's reply is
the BackendOutcome oracle, so they do not influence validation or
extraction. Timeouts and exceptions are returned as data. -/
def execute_async (ko_text context : String) (target_langs : List String)
    (o : BackendOutcome) : ExecResult :=
  match o with
  | .timeout => ⟨false, [], 0, 0⟩
  | .exn => ⟨false, [], 0, 0⟩
  | .ok response =>
    if ¬ is_valid_response response then
      ⟨false, [], (extract_token_usage response).1, (extract_token_usage response).2⟩
    else
      match extract_translations response with
      | none =>
        ⟨false, [], (extract_token_usage response).1, (extract_token_usage response).2⟩
      | some t =>
        if t = [] then
          ⟨false, [], (extract_token_usage response).1, (extract_token_usage response).2⟩
        else ⟨true, t, (extract_token_usage response).1, (extract_token_usage response).2⟩

/-- Modelled from the spec: core/translation_request.py is not under src/
(only its tests are). Request per section 3 of the spec and
src/tests/test_example.py: immutable description plus mutable outcome
fields, all outcome fields starting at their zero values. -/
structure TranslationRequest where
  index : Nat
  ko_text : String
  context : String
  target_langs : List String
  success : Bool := false
  translations : List (String × String) := []
  error : Option String := none
  attempt_count : Nat := 0
  input_tokens : Nat := 0
  output_tokens : Nat := 0
deriving DecidableEq, Repr

namespace TranslationRequest

/-- Modelled from the spec: TranslationRequest.is_valid (file missing from
src/). Spec section 4.1: fails closed when sourceText is empty or
whitespace-only, or targetLangs is empty; tests test_invalid_empty_text
and test_invalid_empty_langs agree. -/
def is_valid (r : TranslationRequest) : Bool :=
  pyStrip r.ko_text ≠ "" ∧ r.target_langs ≠ []

/-- Modelled from the spec: TranslationRequest.mark_success (file missing
from src/). Per test_mark_success: sets success, stores the translations,
clears the error. -/
def mark_success (r : TranslationRequest) (t : List (String × String)) :
    TranslationRequest :=
  { r with success := true, translations := t, error := none }

/-- Modelled from the spec: TranslationRequest.mark_failure (file missing
from src/). Per test_mark_failure: clears success and records the error. -/
def mark_failure (r : TranslationRequest) (msg : String) : TranslationRequest :=
  { r with success := false, error := some msg }

/-- Modelled from the spec: TranslationRequest.increment_attempt (file
missing from src/). Per test_increment_attempt. -/
def increment_attempt (r : TranslationRequest) : TranslationRequest :=
  { r with attempt_count := r.attempt_count + 1 }

end TranslationRequest

/-- Fresh request as built by TranslationOrchestrator.process_request
(src/main.py lines 179-184): outcome fields at defaults. -/
def mkRequest (index : Nat) (ko_text context : String)
    (target_langs : List String) : TranslationRequest :=
  { index := index, ko_text := ko_text, context := context,
    target_langs := target_langs }

/-- Modelled from the spec: handlers/execution_handler.py is not under
src/. Spec section 4.2: call the executor up to maxAttempts times, with
attempt k's backend reply given by the oracle att k; increment
attempt_count per attempt, accumulate token usage even on failed attempts,
stop early on success, and on exhaustion mark the request failed. -/
def execLoop (att : Nat → ExecResult) (k : Nat) (req : TranslationRequest) :
    Nat → TranslationRequest
  | 0 => req.mark_failure "max attempts exceeded"
  | n + 1 =>
    let r := att k
    let req' := { req with
      attempt_count := req.attempt_count + 1,
      input_tokens := req.input_tokens + r.input_tokens,
      output_tokens := req.output_tokens + r.output_tokens }
    if r.success then req'.mark_success r.translations
    else execLoop att (k + 1) req' n

/-- Attempt results actually consumed by execLoop: every result up to and
including the first successful one, capped at the attempt budget. -/
def usedResults (att : Nat → ExecResult) (k : Nat) : Nat → List ExecResult
  | 0 => []
  | n + 1 =>
    let r := att k
    if r.success then [r] else r :: usedResults att (k + 1) n

/-- Modelled from the spec: the chained pipeline of
src/builders/pipeline_builder.py with the handler bodies missing from
src/. Validation (spec section 4.1) short-circuits before execution, so an
invalid request reaches no backend call; otherwise execution (spec section
4.2) runs. Returns the final request and the number of backend calls made.
Persistence and logging mutate nothing the claims observe. -/
def pipelineHandle (maxAttempts : Nat) (att : Nat → ExecResult)
    (req : TranslationRequest) : TranslationRequest × Nat :=
  if req.is_valid then
    (execLoop att 0 req maxAttempts, (usedResults att 0 maxAttempts).length)
  else
    (req.mark_failure "Invalid request: empty text or no target languages", 0)

/-- Token-statistics update of TranslationOrchestrator.process_request
(src/main.py lines 190-193): totals grow by the result's token counts,
guarded by the result having any nonzero count. -/
def updateTotals (tot : Nat × Nat) (r : TranslationRequest) : Nat × Nat :=
  if r.input_tokens > 0 ∨ r.output_tokens > 0 then
    (tot.1 + r.input_tokens, tot.2 + r.output_tokens)
  else tot

/-- Aggregate token totals over the requests processed so far, as
maintained by the orchestrator across process_request calls. -/
def runTotals (rs : List TranslationRequest) : Nat × Nat :=
  rs.foldl updateTotals (0, 0)

/-- Outcome of one worker future as the scheduler's collection loop sees
it (src/main.py lines 264-281): the worker returned True, returned False,
raised, or future.result timed out. -/
inductive ItemResult where
  | ok
  | failed
  | raised
  | timedOut
deriving DecidableEq, Repr

/-- The cooperative shutdown flag (threading.Event in src/main.py line
113) as seen by the n-th flag check of the sequentialised run: it is set
from some check onward (some t) or never (none). It is only ever set,
never cleared. -/
def flagAt (T : Option Nat) (n : Nat) : Bool :=
  match T with
  | none => false
  | some t => decide (t ≤ n)

/-- Worker-side skeleton of TranslationOrchestrator.process_request
(src/main.py lines 162-195): when the shutdown flag is set at entry, it
returns False having read nothing from the subtitle store and run no
pipeline; otherwise it reads the text and the context (two store reads)
and the pipeline's outcome for this index is the behaviour oracle's value.
Returns the item result and the number of store reads performed. -/
def processRequestModel (flag : Bool) (beh : ItemResult) : ItemResult × Nat :=
  if flag then (.failed, 0) else (beh, 2)

/-- Scheduler state threaded through run_batch_translation
(src/main.py lines 230-306). checks counts shutdown-flag reads; batchLog
records (batch start, flag-check index of the loop-head read) per
submitted batch; checkpoints records (batch start, processed count, saved
index) per periodic save; workerLog records (index, result, store reads)
per worker invocation. -/
structure RunState where
  current : Nat
  processed : Nat := 0
  succ : Nat := 0
  failed : List Nat := []
  checks : Nat := 0
  batchLog : List (Nat × Nat) := []
  checkpoints : List (Nat × Nat × Nat) := []
  workerLog : List (Nat × ItemResult × Nat) := []
deriving DecidableEq, Repr

/-- Worker phase of one batch: each index runs process_request, whose
first action is a flag check (src/main.py line 172). Sequentialises the
pool: workers run in submission order before collection starts. -/
def workerPhase (T : Option Nat) (beh : Nat → ItemResult) :
    List Nat → RunState → List (Nat × ItemResult) × RunState
  | [], st => ([], st)
  | idx :: rest, st =>
    let pr := processRequestModel (flagAt T st.checks) (beh idx)
    let st1 := { st with
      checks := st.checks + 1
      workerLog := st.workerLog ++ [(idx, pr.1, pr.2)] }
    let (others, st2) := workerPhase T beh rest st1
    ((idx, pr.1) :: others, st2)

/-- Result-collection loop of run_batch_translation (src/main.py lines
258-283): each iteration first checks the shutdown flag and breaks when it
is set; otherwise a True result bumps the success count and any other
outcome (False, raised exception, result timeout) appends the index to the
failed list; processed is bumped either way. -/
def collectLoop (T : Option Nat) : List (Nat × ItemResult) → RunState → RunState
  | [], st => st
  | (idx, res) :: rest, st =>
    if flagAt T st.checks then { st with checks := st.checks + 1 }
    else if res = ItemResult.ok then
      collectLoop T rest { st with
        checks := st.checks + 1
        succ := st.succ + 1
        processed := st.processed + 1 }
    else
      collectLoop T rest { st with
        checks := st.checks + 1
        failed := st.failed ++ [idx]
        processed := st.processed + 1 }

/-- Batch loop of run_batch_translation (src/main.py lines 241-306):
while current_index is in range and the flag is unset, build the batch
range(current, min(current+batch_size, total+1)), submit it, collect
results, periodically save progress as current_index + batch_size when
processed is a multiple of the save interval, then advance by batch_size.
interruptAt models a KeyboardInterrupt raised while handling that batch;
the Bool result tells whether the run was interrupted. Fuel is structural
recursion bound, always called with more fuel than batches. -/
def runLoop (T : Option Nat) (beh : Nat → ItemResult)
    (total bs interval : Nat) (interruptAt : Option Nat) (batchNo : Nat) :
    Nat → RunState → RunState × Bool
  | 0, st => (st, false)
  | fuel + 1, st =>
    if st.current > total then (st, false)
    else
      let headCheck := st.checks
      let st0 := { st with checks := st.checks + 1 }
      if flagAt T headCheck then (st0, false)
      else if interruptAt = some batchNo then (st0, true)
      else
        let start := st0.current
        let batch := List.range' start (min bs (total + 1 - start))
        let st1 := { st0 with batchLog := st0.batchLog ++ [(start, headCheck)] }
        let st3 := collectLoop T (workerPhase T beh batch st1).1
          (workerPhase T beh batch st1).2
        let st4 := if st3.processed % interval = 0 then
            { st3 with checkpoints := st3.checkpoints ++ [(start, st3.processed, start + bs)] }
          else st3
        runLoop T beh total bs interval interruptAt (batchNo + 1) fuel
          { st4 with current := st4.current + bs }

/-- Outcome of a whole run_batch_translation call. When a
KeyboardInterrupt escapes the try block (src/main.py lines 326-328) the
final save and the statistics are skipped; otherwise both run
(src/main.py lines 314-324). -/
structure RunResult where
  final : RunState
  interrupted : Bool
  finalSaved : Bool
  statsPrinted : Bool
deriving DecidableEq, Repr

/-- run_batch_translation (src/main.py lines 197-335): start-index
validation resets out-of-range values to 1, the batch loop runs, and the
final save_progress(total) and statistics printing execute exactly when no
interrupt escaped the try block. -/
def runBatch (T : Option Nat) (beh : Nat → ItemResult)
    (total bs interval startIndex : Nat) (interruptAt : Option Nat) : RunResult :=
  let start := if 1 ≤ startIndex ∧ startIndex ≤ total then startIndex else 1
  let r := runLoop T beh total bs interval interruptAt 0 (total + 1) { current := start }
  if r.2 then ⟨r.1, true, false, false⟩ else ⟨r.1, false, true, true⟩

/-- One retry round of TranslationOrchestrator._retry_failed_items
(src/main.py lines 363-382): iterate the still-failed indices in order;
a set shutdown flag breaks the loop, dropping the unprocessed suffix; a
successful process_request call bumps the success count; a failure
re-appends the index. o r idx is whether index idx succeeds in round r;
shutdownAfter is how many items this round processes before the flag is
seen set (at least the list length when it never is). Returns the round's
success count and the new remaining list. -/
def retryRoundLoop (o : Nat → Nat → Bool) (r : Nat) :
    Nat → List Nat → Nat × List Nat
  | _, [] => (0, [])
  | 0, _ :: _ => (0, [])
  | s + 1, idx :: rest =>
    let rec' := retryRoundLoop o r s rest
    if o r idx then (rec'.1 + 1, rec'.2) else (rec'.1, idx :: rec'.2)

/-- Round loop of _retry_failed_items (src/main.py lines 353-390): run up
to the budget many rounds, stopping early when nothing remains or the
shutdown flag is set at the round head (stop r). Returns the total retry
success count and the trace of remaining lists, one entry per executed
round. -/
def retryRounds (o : Nat → Nat → Bool) (shutdownAfter : Nat → Nat)
    (stop : Nat → Bool) (r : Nat) (remaining : List Nat) :
    Nat → Nat × List (List Nat)
  | 0 => (0, [])
  | n + 1 =>
    if remaining = [] ∨ stop r then (0, [])
    else
      let rd := retryRoundLoop o r (shutdownAfter r) remaining
      let rest := retryRounds o shutdownAfter stop (r + 1) rd.2 n
      (rd.1 + rest.1, rd.2 :: rest.2)

/-- Remaining list after m further rounds starting at round r: the closed
form the retryRounds trace entries take. -/
def remAfterFrom (o : Nat → Nat → Bool) (shutdownAfter : Nat → Nat)
    (r : Nat) (rem : List Nat) : Nat → List Nat
  | 0 => rem
  | m + 1 =>
    remAfterFrom o shutdownAfter (r + 1)
      (retryRoundLoop o r (shutdownAfter r) rem).2 m

/-- The validity condition exactly as the spec words it, for comparison
with is_valid_response (claim C2): the response is non-empty, and either
it carries a structured result (tool calls on the last message), or its
free-form text has length at least 5 after trimming and matches,
case-insensitively as a substring, none of the rejection phrases and none
of the tool-chatter phrases. -/
def validSpec (r : Response) : Prop :=
  ∃ msgs last, r = some msgs ∧ msgs.getLast? = some last ∧
    (last.tool_calls ≠ [] ∨
      (5 ≤ (pyStrip last.content).length ∧
       (∀ p ∈ REPETITIVE_PATTERNS, substrLower p last.content = false) ∧
       (∀ p ∈ TOOL_PATTERNS, substrLower p last.content = false)))

/-- A backend response whose tool call stores a language code outside any
plausible target list: the structured payload the agent chose to send. -/
def sampleForeignResponse : Response :=
  some [⟨[⟨"update_translations_in_memory", some [("xx", "hello")]⟩], "", none⟩]

/-- A last message that both carries a tool call and whose text contains
rejection and tool-chatter phrases. -/
def chatterMessage : Message :=
  ⟨[⟨"x", none⟩], "calling tool invoke", none⟩

/-! Theorems. -/

theorem pyStrip_length_of_empty (s : String) (h : s = "") :
    (pyStrip s).length = 0 := by
  subst h; rfl

/-- C2: a backend response is judged valid by is_valid_response if and
only if it is non-empty and either its last message carries tool calls, or
its text has trimmed length at least 5 and matches, case-insensitively as
a substring, none of the rejection phrases and none of the tool-chatter
phrases. -/
theorem c2_is_valid_response_iff_spec (r : Response) :
    is_valid_response r = true ↔ validSpec r := by
  constructor
  · intro h
    cases r with
    | none => simp [is_valid_response] at h
    | some msgs =>
      cases hL : msgs.getLast? with
      | none => simp [is_valid_response, hL] at h
      | some last =>
        simp only [is_valid_response, hL] at h
        refine ⟨msgs, last, rfl, hL, ?_⟩
        by_cases htc : last.tool_calls = []
        · right
          simp only [htc, ne_eq, not_true_eq_false, if_false] at h
          by_cases h1 : last.content = "" ∨ (pyStrip last.content).length < 5
          · rw [if_pos h1] at h; simp at h
          · rw [if_neg h1] at h
            push_neg at h1
            cases hR : REPETITIVE_PATTERNS.any
                (fun p => substrLower p last.content) with
            | true => rw [hR] at h; simp at h
            | false =>
              rw [hR] at h
              simp only [Bool.false_eq_true, if_false] at h
              cases hT : TOOL_PATTERNS.any
                  (fun p => substrLower p last.content) with
              | true => rw [hT] at h; simp at h
              | false =>
                refine ⟨by omega, ?_, ?_⟩
                · intro p hp
                  have hnp := List.any_eq_false.mp hR p hp
                  cases hval : substrLower p last.content with
                  | false => rfl
                  | true => exact absurd hval hnp
                · intro p hp
                  have hnp := List.any_eq_false.mp hT p hp
                  cases hval : substrLower p last.content with
                  | false => rfl
                  | true => exact absurd hval hnp
        · exact Or.inl htc
  · rintro ⟨msgs', last', hm, hl, hd⟩
    subst hm
    simp only [is_valid_response, hl]
    rcases hd with htc | ⟨hlen, hA, hB⟩
    · simp [htc]
    · have hR : REPETITIVE_PATTERNS.any
          (fun p => substrLower p last'.content) = false :=
        List.any_eq_false.mpr (fun p hp => by rw [hA p hp]; simp)
      have hT : TOOL_PATTERNS.any
          (fun p => substrLower p last'.content) = false :=
        List.any_eq_false.mpr (fun p hp => by rw [hB p hp]; simp)
      have hc1 : ¬ (last'.content = "" ∨ (pyStrip last'.content).length < 5) := by
        rintro (hc | hc)
        · rw [pyStrip_length_of_empty _ hc] at hlen; omega
        · omega
      by_cases htc : last'.tool_calls = []
      · simp [htc, hc1, hR, hT]
      · simp [htc]

/-- C9: a last message with a non-empty tool_calls list makes
is_valid_response return True immediately, before the length check or
either phrase-pattern filter is applied, whatever the message text is. -/
theorem c9_tool_calls_short_circuit (msgs : List Message) (last : Message)
    (h1 : msgs.getLast? = some last) (h2 : last.tool_calls ≠ []) :
    is_valid_response (some msgs) = true := by
  simp only [is_valid_response, h1]
  simp [h2]

/-- C9 witness: a message that carries a tool call and whose text contains
both a tool-chatter phrase and the word invoke is still judged valid. -/
theorem c9_tool_calls_short_circuit_witness :
    is_valid_response (some [chatterMessage]) = true ∧
    substrLower "invoke" chatterMessage.content = true ∧
    substrLower "calling tool" chatterMessage.content = true :=
  ⟨c9_tool_calls_short_circuit [chatterMessage] chatterMessage rfl (by decide),
   by decide, by decide⟩

/-- C3 counterexample: a valid response whose tool call stores the key
"xx" yields a successful execution whose translations keys are not a
subset of the request's target languages (here just "en"): the code never
compares extracted keys with targetLangs. -/
theorem c3_counterexample_keys_not_subset :
    (execute_async "text" "ctx" ["en"] (.ok sampleForeignResponse)).success
        = true ∧
    ¬ (∀ p ∈ (execute_async "text" "ctx" ["en"]
        (.ok sampleForeignResponse)).translations, p.1 ∈ ["en"]) := by
  constructor
  · decide
  · decide

/-- C3 amended: every execution returning success carries a non-empty
translations mapping, and an execution whose response yields no extracted
mapping returns success equal to false; no subset relation with the
target languages is enforced. -/
theorem c3_success_iff_nonempty_extraction (ko ctx : String)
    (tl : List String) (o : BackendOutcome) :
    ((execute_async ko ctx tl o).success = true →
      (execute_async ko ctx tl o).translations ≠ []) ∧
    (∀ resp : Response, extract_translations resp = none →
      (execute_async ko ctx tl (.ok resp)).success = false) := by
  constructor
  · intro h
    cases o with
    | timeout => simp [execute_async] at h
    | exn => simp [execute_async] at h
    | ok resp =>
      simp only [execute_async] at h ⊢
      by_cases hv : is_valid_response resp = true
      · rw [if_neg (by simp [hv])] at h ⊢
        cases he : extract_translations resp with
        | none => rw [he] at h; simp at h
        | some t =>
          rw [he] at h
          dsimp only at h ⊢
          by_cases ht : t = []
          · rw [if_pos ht] at h; simp at h
          · rw [if_neg ht] at h ⊢; simpa using ht
      · rw [if_pos (by simp [hv])] at h; simp at h
  · intro resp hresp
    simp only [execute_async]
    by_cases hv : is_valid_response resp = true
    · rw [if_neg (by simp [hv]), hresp]
    · rw [if_pos (by simp [hv])]

/-- C3 witness for the amended claim: a successful concrete execution has
non-empty translations, and a response with no extractable mapping fails. -/
theorem c3_success_iff_nonempty_extraction_witness :
    (execute_async "text" "ctx" ["en"]
        (.ok sampleForeignResponse)).translations ≠ [] ∧
    (execute_async "text" "ctx" ["en"] (.ok none)).success = false :=
  ⟨(c3_success_iff_nonempty_extraction "text" "ctx" ["en"]
      (.ok sampleForeignResponse)).1 (by decide),
   (c3_success_iff_nonempty_extraction "text" "ctx" ["en"] .exn).2 none
     (by decide)⟩

/-- C1: item-level errors are data, not faults, and one bad item cannot
abort the batch: execute_async maps a timeout and a raised exception to a
failed result tuple, and with the shutdown flag never set the collection
loop processes every submitted item, counting the successes and recording
exactly the indices of the non-successful items in the failed list, in
order. -/
theorem collectLoop_cons_ok (T : Option Nat) (idx : Nat)
    (rest : List (Nat × ItemResult)) (st : RunState)
    (hflag : flagAt T st.checks = false) :
    collectLoop T ((idx, ItemResult.ok) :: rest) st =
      collectLoop T rest { st with
        checks := st.checks + 1
        succ := st.succ + 1
        processed := st.processed + 1 } := by
  simp [collectLoop, hflag]

theorem collectLoop_cons_bad (T : Option Nat) (idx : Nat) (res : ItemResult)
    (rest : List (Nat × ItemResult)) (st : RunState)
    (hflag : flagAt T st.checks = false) (hres : res ≠ ItemResult.ok) :
    collectLoop T ((idx, res) :: rest) st =
      collectLoop T rest { st with
        checks := st.checks + 1
        failed := st.failed ++ [idx]
        processed := st.processed + 1 } := by
  simp [collectLoop, hflag, hres]

/-- C1: item-level errors are data, not faults, and one bad item cannot
abort the batch: execute_async maps a timeout and a raised exception to a
failed result tuple, and with the shutdown flag never set the collection
loop processes every submitted item, counting the successes and recording
exactly the indices of the non-successful items in the failed list, in
order. -/
theorem c1_errors_as_data_and_batch_continues :
    (∀ ko ctx tl, execute_async ko ctx tl .timeout = ⟨false, [], 0, 0⟩ ∧
        execute_async ko ctx tl .exn = ⟨false, [], 0, 0⟩) ∧
    (∀ (items : List (Nat × ItemResult)) (st : RunState),
      (collectLoop none items st).processed = st.processed + items.length ∧
      (collectLoop none items st).succ =
        st.succ + (items.filter (fun p => p.2 == ItemResult.ok)).length ∧
      (collectLoop none items st).failed =
        st.failed ++ (items.filter
          (fun p => ! (p.2 == ItemResult.ok))).map Prod.fst) := by
  refine ⟨fun ko ctx tl => ⟨rfl, rfl⟩, ?_⟩
  intro items
  induction items with
  | nil => intro st; simp [collectLoop]
  | cons hd tl ih =>
    intro st
    obtain ⟨idx, res⟩ := hd
    by_cases hres : res = ItemResult.ok
    · subst hres
      rw [collectLoop_cons_ok none idx tl st rfl]
      refine ⟨?_, ?_, ?_⟩
      · rw [(ih _).1]; simp; omega
      · rw [(ih _).2.1]; simp; omega
      · rw [(ih _).2.2]; simp
    · rw [collectLoop_cons_bad none idx res tl st rfl hres]
      refine ⟨?_, ?_, ?_⟩
      · rw [(ih _).1]; simp; omega
      · rw [(ih _).2.1]; simp [hres]
      · rw [(ih _).2.2]; simp [hres]

theorem retryRoundLoop_subset (o : Nat → Nat → Bool) (r : Nat) :
    ∀ (s : Nat) (rem : List Nat), (retryRoundLoop o r s rem).2 ⊆ rem := by
  intro s rem
  induction rem generalizing s with
  | nil => simp [retryRoundLoop]
  | cons idx rest ih =>
    cases s with
    | zero => simp [retryRoundLoop]
    | succ s =>
      simp only [retryRoundLoop]
      by_cases h : o r idx
      · rw [if_pos h]
        exact (ih s).trans (List.subset_cons_self _ _)
      · rw [if_neg h]
        exact List.cons_subset_cons idx (ih s)

theorem retryRoundLoop_removes (o : Nat → Nat → Bool) (r idx : Nat)
    (h : o r idx = true) :
    ∀ (s : Nat) (rem : List Nat), idx ∉ (retryRoundLoop o r s rem).2 := by
  intro s rem
  induction rem generalizing s with
  | nil => simp [retryRoundLoop]
  | cons j rest ih =>
    cases s with
    | zero => simp [retryRoundLoop]
    | succ s =>
      simp only [retryRoundLoop]
      by_cases hj : o r j
      · rw [if_pos hj]; exact ih s
      · rw [if_neg hj]
        intro hmem
        rcases List.mem_cons.mp hmem with hmem | hmem
        · subst hmem; rw [h] at hj; exact hj rfl
        · exact ih s hmem

theorem retryRounds_trace_get (o : Nat → Nat → Bool) (sa : Nat → Nat)
    (stop : Nat → Bool) :
    ∀ (n r : Nat) (rem : List Nat) (j : Nat) (l : List Nat),
      (retryRounds o sa stop r rem n).2.get? j = some l →
      l = remAfterFrom o sa r rem (j + 1) := by
  intro n
  induction n with
  | zero => intro r rem j l h; simp [retryRounds] at h
  | succ n ih =>
    intro r rem j l h
    simp only [retryRounds] at h
    by_cases hstop : rem = [] ∨ stop r = true
    · rw [if_pos hstop] at h; simp at h
    · rw [if_neg hstop] at h
      cases j with
      | zero =>
        simp at h
        subst h; rfl
      | succ j =>
        simp only [List.get?] at h
        have := ih (r + 1) (retryRoundLoop o r (sa r) rem).2 j l h
        rw [this]; rfl

theorem remAfterFrom_subset (o : Nat → Nat → Bool) (sa : Nat → Nat) :
    ∀ (m r : Nat) (rem : List Nat), remAfterFrom o sa r rem m ⊆ rem := by
  intro m
  induction m with
  | zero => intro r rem; simp [remAfterFrom]
  | succ m ih =>
    intro r rem
    simp only [remAfterFrom]
    exact (ih (r + 1) _).trans (retryRoundLoop_subset o r (sa r) rem)

theorem remAfterFrom_step (o : Nat → Nat → Bool) (sa : Nat → Nat) :
    ∀ (m r : Nat) (rem : List Nat),
      remAfterFrom o sa r rem (m + 1) ⊆ remAfterFrom o sa r rem m := by
  intro m
  induction m with
  | zero =>
    intro r rem
    simp only [remAfterFrom]
    exact retryRoundLoop_subset o r (sa r) rem
  | succ m ih =>
    intro r rem
    exact ih (r + 1) (retryRoundLoop o r (sa r) rem).2

theorem remAfterFrom_removes (o : Nat → Nat → Bool) (sa : Nat → Nat)
    (k idx : Nat) (h : o k idx = true) :
    ∀ (m r : Nat) (rem : List Nat), r ≤ k → k < r + m →
      idx ∉ remAfterFrom o sa r rem m := by
  intro m
  induction m with
  | zero => intro r rem h1 h2; omega
  | succ m ih =>
    intro r rem h1 h2
    simp only [remAfterFrom]
    by_cases hk : r = k
    · subst hk
      intro hmem
      exact retryRoundLoop_removes o r idx h (sa r) rem
        (remAfterFrom_subset o sa m (r + 1) _ hmem)
    · exact ih (r + 1) _ (by omega) (by omega)

theorem retryRounds_trace_length (o : Nat → Nat → Bool) (sa : Nat → Nat)
    (stop : Nat → Bool) :
    ∀ (n r : Nat) (rem : List Nat),
      (retryRounds o sa stop r rem n).2.length ≤ n := by
  intro n
  induction n with
  | zero => intro r rem; simp [retryRounds]
  | succ n ih =>
    intro r rem
    simp only [retryRounds]
    by_cases hstop : rem = [] ∨ stop r = true
    · rw [if_pos hstop]; simp
    · rw [if_neg hstop]
      simpa using ih (r + 1) (retryRoundLoop o r (sa r) rem).2

/-- C4: over the retry rounds driven from an initial failed list, the
number of executed rounds never exceeds the round budget, the remaining
list never grows from one round to the next, and an index that succeeds in
round k is absent from the remaining list of round k and of every later
round. o r idx tells whether index idx succeeds when retried in round r;
sa and stop are the shutdown-flag schedules inside and between rounds. -/
theorem c4_retry_rounds_converge (o : Nat → Nat → Bool) (sa : Nat → Nat)
    (stop : Nat → Bool) (failed : List Nat) (budget : Nat) :
    ((retryRounds o sa stop 0 failed budget).2.length ≤ budget) ∧
    (∀ j l l',
      (retryRounds o sa stop 0 failed budget).2.get? j = some l →
      (retryRounds o sa stop 0 failed budget).2.get? (j + 1) = some l' →
      l' ⊆ l) ∧
    (∀ k idx, o k idx = true → ∀ j l, k ≤ j →
      (retryRounds o sa stop 0 failed budget).2.get? j = some l →
      idx ∉ l) := by
  refine ⟨retryRounds_trace_length o sa stop budget 0 failed, ?_, ?_⟩
  · intro j l l' hj hj'
    rw [retryRounds_trace_get o sa stop budget 0 failed j l hj,
      retryRounds_trace_get o sa stop budget 0 failed (j + 1) l' hj']
    exact remAfterFrom_step o sa (j + 1) 0 failed
  · intro k idx hk j l hkj hj
    rw [retryRounds_trace_get o sa stop budget 0 failed j l hj]
    exact remAfterFrom_removes o sa k idx hk (j + 1) 0 failed (by omega) (by omega)

/-- C4 witness: with indices 3, 4, 7 initially failed and only index 4
succeeding (in round 1), the trace is [[3,4,7],[3,7]]: two rounds within
the budget of 2, round 1's remaining list shrinks, and 4 is gone from it. -/
theorem c4_retry_rounds_converge_witness :
    (retryRounds (fun r idx => decide (r = 1 ∧ idx = 4)) (fun _ => 100)
        (fun _ => false) 0 [3, 4, 7] 2).2.length ≤ 2 ∧
    [3, 7] ⊆ [3, 4, 7] ∧ (4 : Nat) ∉ [3, 7] :=
  ⟨(c4_retry_rounds_converge (fun r idx => decide (r = 1 ∧ idx = 4))
      (fun _ => 100) (fun _ => false) [3, 4, 7] 2).1,
   (c4_retry_rounds_converge (fun r idx => decide (r = 1 ∧ idx = 4))
      (fun _ => 100) (fun _ => false) [3, 4, 7] 2).2.1 0 [3, 4, 7] [3, 7]
     (by decide) (by decide),
   fun hmem => by
     exact (c4_retry_rounds_converge (fun r idx => decide (r = 1 ∧ idx = 4))
       (fun _ => 100) (fun _ => false) [3, 4, 7] 2).2.2 1 4 (by decide) 1
       [3, 7] (by decide) (by decide) hmem⟩

theorem updateTotals_eq (t : Nat × Nat) (r : TranslationRequest) :
    updateTotals t r = (t.1 + r.input_tokens, t.2 + r.output_tokens) := by
  unfold updateTotals
  by_cases h : r.input_tokens > 0 ∨ r.output_tokens > 0
  · rw [if_pos h]
  · rw [if_neg h]
    push_neg at h
    have h1 : r.input_tokens = 0 := by omega
    have h2 : r.output_tokens = 0 := by omega
    simp [h1, h2]

theorem foldl_updateTotals (rs : List TranslationRequest) :
    ∀ t : Nat × Nat, rs.foldl updateTotals t =
      (t.1 + (rs.map (fun r => r.input_tokens)).sum,
       t.2 + (rs.map (fun r => r.output_tokens)).sum) := by
  induction rs with
  | nil => intro t; simp
  | cons r rest ih =>
    intro t
    simp only [List.foldl_cons, List.map_cons, List.sum_cons]
    rw [ih (updateTotals t r), updateTotals_eq]
    simp
    constructor <;> omega

theorem execLoop_tokens (att : Nat → ExecResult) :
    ∀ (n k : Nat) (req : TranslationRequest),
      (execLoop att k req n).input_tokens =
        req.input_tokens +
          ((usedResults att k n).map (fun r => r.input_tokens)).sum ∧
      (execLoop att k req n).output_tokens =
        req.output_tokens +
          ((usedResults att k n).map (fun r => r.output_tokens)).sum := by
  intro n
  induction n with
  | zero =>
    intro k req
    simp [execLoop, usedResults, TranslationRequest.mark_failure]
  | succ n ih =>
    intro k req
    simp only [execLoop, usedResults]
    by_cases hs : (att k).success = true
    · rw [if_pos hs, if_pos hs]
      simp [TranslationRequest.mark_success]
    · rw [if_neg hs, if_neg hs]
      obtain ⟨ih1, ih2⟩ := ih (k + 1)
        { req with
          attempt_count := req.attempt_count + 1
          input_tokens := req.input_tokens + (att k).input_tokens
          output_tokens := req.output_tokens + (att k).output_tokens }
      rw [ih1, ih2]
      simp
      constructor <;> omega

/-- C5: the orchestrator's token totals equal the sum of the per-item
token counts, each item's counts equal the sum of the token counts of
every attempt the executor made for it, failed attempts included (a
timed-out attempt contributes the zero counts the executor returned), and
the totals over any prefix of the run never exceed the final totals, so
they never decrease as the run proceeds. -/
theorem c5_token_totals_sum_and_monotone (rs : List TranslationRequest)
    (att : Nat → ExecResult) (maxAttempts : Nat) (req : TranslationRequest) :
    (runTotals rs = ((rs.map (fun r => r.input_tokens)).sum,
        (rs.map (fun r => r.output_tokens)).sum)) ∧
    (∀ n, (runTotals (rs.take n)).1 ≤ (runTotals rs).1 ∧
        (runTotals (rs.take n)).2 ≤ (runTotals rs).2) ∧
    ((execLoop att 0 req maxAttempts).input_tokens =
        req.input_tokens +
          ((usedResults att 0 maxAttempts).map (fun r => r.input_tokens)).sum ∧
     (execLoop att 0 req maxAttempts).output_tokens =
        req.output_tokens +
          ((usedResults att 0 maxAttempts).map
            (fun r => r.output_tokens)).sum) := by
  refine ⟨?_, ?_, execLoop_tokens att maxAttempts 0 req⟩
  · rw [runTotals, foldl_updateTotals]; simp
  · intro n
    rw [runTotals, runTotals, foldl_updateTotals, foldl_updateTotals]
    constructor
    · have := List.sum_take_add_sum_drop (rs.map (fun r => r.input_tokens)) n
      simp only [List.map_take]
      omega
    · have := List.sum_take_add_sum_drop (rs.map (fun r => r.output_tokens)) n
      simp only [List.map_take]
      omega

/-- C8: a request whose source text is empty or whitespace-only, or whose
target-language list is empty, is marked failed with an error by the
validation stage, its attempt count stays 0, and no backend call is made. -/
theorem c8_validation_fails_closed (idx : Nat) (ko ctx : String)
    (langs : List String) (att : Nat → ExecResult) (maxAttempts : Nat)
    (h : pyStrip ko = "" ∨ langs = []) :
    (pipelineHandle maxAttempts att (mkRequest idx ko ctx langs)).1.success
        = false ∧
    (pipelineHandle maxAttempts att
        (mkRequest idx ko ctx langs)).1.error.isSome = true ∧
    (pipelineHandle maxAttempts att
        (mkRequest idx ko ctx langs)).1.attempt_count = 0 ∧
    (pipelineHandle maxAttempts att (mkRequest idx ko ctx langs)).2 = 0 := by
  have hv : (mkRequest idx ko ctx langs).is_valid = false := by
    simp only [TranslationRequest.is_valid, mkRequest]
    rcases h with h | h <;> simp [h]
  unfold pipelineHandle
  rw [hv]
  simp [TranslationRequest.mark_failure, mkRequest]

/-- C8 witness: a whitespace-only source text fails validation with no
backend call and attempt count 0. -/
theorem c8_validation_fails_closed_witness :
    (pipelineHandle 3 (fun _ => ⟨false, [], 0, 0⟩)
        (mkRequest 1 " " "" ["en"])).1.success = false ∧
    (pipelineHandle 3 (fun _ => ⟨false, [], 0, 0⟩)
        (mkRequest 1 " " "" ["en"])).1.attempt_count = 0 ∧
    (pipelineHandle 3 (fun _ => ⟨false, [], 0, 0⟩)
        (mkRequest 1 " " "" ["en"])).2 = 0 := by
  obtain ⟨h1, h2, h3, h4⟩ := c8_validation_fails_closed 1 " " "" ["en"]
    (fun _ => ⟨false, [], 0, 0⟩) 3 (Or.inl (by decide))
  exact ⟨h1, h3, h4⟩

theorem workerPhase_batchLog (T : Option Nat) (beh : Nat → ItemResult) :
    ∀ (batch : List Nat) (st : RunState),
      (workerPhase T beh batch st).2.batchLog = st.batchLog := by
  intro batch
  induction batch with
  | nil => intro st; rfl
  | cons idx rest ih => intro st; simp only [workerPhase]; rw [ih]

theorem workerPhase_checkpoints (T : Option Nat) (beh : Nat → ItemResult) :
    ∀ (batch : List Nat) (st : RunState),
      (workerPhase T beh batch st).2.checkpoints = st.checkpoints := by
  intro batch
  induction batch with
  | nil => intro st; rfl
  | cons idx rest ih => intro st; simp only [workerPhase]; rw [ih]

theorem collectLoop_batchLog (T : Option Nat) :
    ∀ (items : List (Nat × ItemResult)) (st : RunState),
      (collectLoop T items st).batchLog = st.batchLog := by
  intro items
  induction items with
  | nil => intro st; rfl
  | cons hd rest ih =>
    intro st
    obtain ⟨idx, res⟩ := hd
    simp only [collectLoop]
    by_cases hflag : flagAt T st.checks = true
    · rw [if_pos hflag]
    · rw [if_neg hflag]
      by_cases hres : res = ItemResult.ok
      · rw [if_pos hres, ih]
      · rw [if_neg hres, ih]

theorem collectLoop_checkpoints (T : Option Nat) :
    ∀ (items : List (Nat × ItemResult)) (st : RunState),
      (collectLoop T items st).checkpoints = st.checkpoints := by
  intro items
  induction items with
  | nil => intro st; rfl
  | cons hd rest ih =>
    intro st
    obtain ⟨idx, res⟩ := hd
    simp only [collectLoop]
    by_cases hflag : flagAt T st.checks = true
    · rw [if_pos hflag]
    · rw [if_neg hflag]
      by_cases hres : res = ItemResult.ok
      · rw [if_pos hres, ih]
      · rw [if_neg hres, ih]

theorem runLoop_no_interrupt (T : Option Nat) (beh : Nat → ItemResult)
    (total bs interval : Nat) :
    ∀ (fuel batchNo : Nat) (st : RunState),
      (runLoop T beh total bs interval none batchNo fuel st).2 = false := by
  intro fuel
  induction fuel with
  | zero => intro batchNo st; rfl
  | succ fuel ih =>
    intro batchNo st
    simp only [runLoop]
    by_cases h1 : st.current > total
    · rw [if_pos h1]
    · rw [if_neg h1]
      by_cases h2 : flagAt T st.checks = true
      · rw [if_pos h2]
      · rw [if_neg h2]
        simp only [reduceCtorEq, if_false]
        exact ih (batchNo + 1) _

theorem runLoop_batchLog_inv (T : Option Nat) (beh : Nat → ItemResult)
    (total bs interval : Nat) (ia : Option Nat) :
    ∀ (fuel batchNo : Nat) (st : RunState) (e : Nat × Nat),
      e ∈ (runLoop T beh total bs interval ia batchNo fuel st).1.batchLog →
      e ∈ st.batchLog ∨ flagAt T e.2 = false := by
  intro fuel
  induction fuel with
  | zero => intro batchNo st e he; exact Or.inl he
  | succ fuel ih =>
    intro batchNo st e he
    simp only [runLoop] at he
    by_cases h1 : st.current > total
    · rw [if_pos h1] at he; exact Or.inl he
    · rw [if_neg h1] at he
      by_cases h2 : flagAt T st.checks = true
      · rw [if_pos h2] at he; exact Or.inl he
      · rw [if_neg h2] at he
        by_cases h3 : ia = some batchNo
        · rw [if_pos h3] at he; exact Or.inl he
        · rw [if_neg h3] at he
          rcases ih (batchNo + 1) _ e he with hmem | hflag
          · by_cases h4 :
                (collectLoop T (workerPhase T beh
                    (List.range' st.current (min bs (total + 1 - st.current)))
                    { st with
                      checks := st.checks + 1
                      batchLog := st.batchLog ++ [(st.current, st.checks)] }).1
                  (workerPhase T beh
                    (List.range' st.current (min bs (total + 1 - st.current)))
                    { st with
                      checks := st.checks + 1
                      batchLog := st.batchLog ++ [(st.current, st.checks)] }).2).processed
                  % interval = 0
            · rw [if_pos h4] at hmem
              simp only [collectLoop_batchLog, workerPhase_batchLog] at hmem
              rcases List.mem_append.mp hmem with hmem | hmem
              · exact Or.inl hmem
              · right
                have : e = (st.current, st.checks) := by simpa using hmem
                rw [this]
                simpa using Bool.not_eq_true _ |>.mp h2
            · rw [if_neg h4] at hmem
              simp only [collectLoop_batchLog, workerPhase_batchLog] at hmem
              rcases List.mem_append.mp hmem with hmem | hmem
              · exact Or.inl hmem
              · right
                have : e = (st.current, st.checks) := by simpa using hmem
                rw [this]
                simpa using Bool.not_eq_true _ |>.mp h2
          · exact Or.inr hflag

theorem runLoop_checkpoints_inv (T : Option Nat) (beh : Nat → ItemResult)
    (total bs interval : Nat) (ia : Option Nat) :
    ∀ (fuel batchNo : Nat) (st : RunState) (e : Nat × Nat × Nat),
      e ∈ (runLoop T beh total bs interval ia batchNo fuel st).1.checkpoints →
      e ∈ st.checkpoints ∨ (e.2.2 = e.1 + bs ∧ e.2.1 % interval = 0) := by
  intro fuel
  induction fuel with
  | zero => intro batchNo st e he; exact Or.inl he
  | succ fuel ih =>
    intro batchNo st e he
    simp only [runLoop] at he
    by_cases h1 : st.current > total
    · rw [if_pos h1] at he; exact Or.inl he
    · rw [if_neg h1] at he
      by_cases h2 : flagAt T st.checks = true
      · rw [if_pos h2] at he; exact Or.inl he
      · rw [if_neg h2] at he
        by_cases h3 : ia = some batchNo
        · rw [if_pos h3] at he; exact Or.inl he
        · rw [if_neg h3] at he
          rcases ih (batchNo + 1) _ e he with hmem | hprop
          · by_cases h4 :
                (collectLoop T (workerPhase T beh
                    (List.range' st.current (min bs (total + 1 - st.current)))
                    { st with
                      checks := st.checks + 1
                      batchLog := st.batchLog ++ [(st.current, st.checks)] }).1
                  (workerPhase T beh
                    (List.range' st.current (min bs (total + 1 - st.current)))
                    { st with
                      checks := st.checks + 1
                      batchLog := st.batchLog ++ [(st.current, st.checks)] }).2).processed
                  % interval = 0
            · rw [if_pos h4] at hmem
              simp only [List.mem_append] at hmem
              rcases hmem with hmem | hmem
              · rw [collectLoop_checkpoints, workerPhase_checkpoints] at hmem
                exact Or.inl hmem
              · right
                have he2 : e = (st.current,
                    (collectLoop T (workerPhase T beh
                        (List.range' st.current (min bs (total + 1 - st.current)))
                        { st with
                          checks := st.checks + 1
                          batchLog := st.batchLog ++ [(st.current, st.checks)] }).1
                      (workerPhase T beh
                        (List.range' st.current (min bs (total + 1 - st.current)))
                        { st with
                          checks := st.checks + 1
                          batchLog := st.batchLog ++ [(st.current, st.checks)] }).2).processed,
                    st.current + bs) := by simpa using hmem
                rw [he2]
                exact ⟨rfl, h4⟩
            · rw [if_neg h4] at hmem
              rw [collectLoop_checkpoints, workerPhase_checkpoints] at hmem
              exact Or.inl hmem
          · exact Or.inr hprop

/-- C6 amended: with no KeyboardInterrupt, however and whenever the
shutdown flag becomes set, every submitted batch's loop-head flag check
observed the flag unset (so no batch is submitted after the flag is
observed), and the final progress save and the end-of-run statistics still
execute; a raised KeyboardInterrupt, by contrast, skips them (see the
counterexample). -/
theorem c6_shutdown_still_saves_and_prints (T : Option Nat)
    (beh : Nat → ItemResult) (total bs interval startIndex : Nat) :
    (runBatch T beh total bs interval startIndex none).finalSaved = true ∧
    (runBatch T beh total bs interval startIndex none).statsPrinted = true ∧
    (∀ e ∈ (runBatch T beh total bs interval startIndex none).final.batchLog,
      flagAt T e.2 = false) := by
  have hni := runLoop_no_interrupt T beh total bs interval (total + 1) 0
    { current := if 1 ≤ startIndex ∧ startIndex ≤ total then startIndex else 1 }
  unfold runBatch
  simp only [hni, Bool.false_eq_true, if_false]
  refine ⟨trivial, trivial, ?_⟩
  intro e he
  rcases runLoop_batchLog_inv T beh total bs interval none (total + 1) 0 _ e he
    with hmem | hflag
  · simp at hmem
  · exact hflag

/-- C6 witness: a run with the flag set from the second check onward still
saves and prints statistics, and its only batch was submitted while the
flag was observed unset. -/
theorem c6_shutdown_still_saves_and_prints_witness :
    (runBatch (some 1) (fun _ => ItemResult.ok) 1 1 5 1 none).finalSaved
        = true ∧
    flagAt (some 1) 0 = false :=
  ⟨(c6_shutdown_still_saves_and_prints (some 1) (fun _ => ItemResult.ok)
      1 1 5 1).1,
   (c6_shutdown_still_saves_and_prints (some 1) (fun _ => ItemResult.ok)
      1 1 5 1).2.2 (1, 0) (by decide)⟩

/-- C6 counterexample: a KeyboardInterrupt raised while handling the first
batch ends the run without the final save and without printing the
end-of-run statistics, refuting the claim's "including when the run ends
early via interrupt" clause. -/
theorem c6_counterexample_interrupt_skips_stats :
    (runBatch none (fun _ => ItemResult.ok) 2 1 1 1 (some 0)).statsPrinted
        = false ∧
    (runBatch none (fun _ => ItemResult.ok) 2 1 1 1 (some 0)).finalSaved
        = false := by
  constructor
  · decide
  · decide

/-- C7: every periodic checkpoint recorded during batch processing is
taken at a processed-item count that is a multiple of the save interval
and persists exactly its batch's start index plus the batch size; in the
concrete run with 3 items, batch size 5 and save interval 3, the one
checkpoint persists index 6 although every item succeeded and the highest
index is 3 - the checkpoint overshoots the last completed index. -/
theorem c7_checkpoint_value_is_boundary (T : Option Nat)
    (beh : Nat → ItemResult) (total bs interval startIndex : Nat)
    (ia : Option Nat) :
    (∀ e ∈ (runBatch T beh total bs interval startIndex ia).final.checkpoints,
      e.2.2 = e.1 + bs ∧ e.2.1 % interval = 0) ∧
    ((runBatch none (fun _ => ItemResult.ok) 3 5 3 1 none).final.checkpoints
        = [(1, 3, 6)] ∧
     (runBatch none (fun _ => ItemResult.ok) 3 5 3 1 none).final.succ = 3 ∧
     3 < 6) := by
  constructor
  · intro e he
    unfold runBatch at he
    simp only at he
    by_cases hi : (runLoop T beh total bs interval ia 0 (total + 1)
        { current := if 1 ≤ startIndex ∧ startIndex ≤ total
            then startIndex else 1 }).2 = true
    · rw [if_pos hi] at he
      simp only at he
      rcases runLoop_checkpoints_inv T beh total bs interval ia (total + 1) 0
        _ e he with hmem | hp
      · simp at hmem
      · exact hp
    · rw [if_neg hi] at he
      simp only at he
      rcases runLoop_checkpoints_inv T beh total bs interval ia (total + 1) 0
        _ e he with hmem | hp
      · simp at hmem
      · exact hp
  · refine ⟨by decide, by decide, by decide⟩

/-- C7 witness: in the concrete overshoot run the checkpoint entry
(1, 3, 6) satisfies value = start + batch size and processed mod interval
= 0. -/
theorem c7_checkpoint_value_is_boundary_witness :
    (1 + 5 = 6 ∧ (6 : Nat) = 1 + 5 ∧ (3 : Nat) % 3 = 0) := by
  refine ⟨by decide, ?_, ?_⟩
  · exact ((c7_checkpoint_value_is_boundary none (fun _ => ItemResult.ok)
      3 5 3 1 none).1 (1, 3, 6) (by decide)).1
  · exact ((c7_checkpoint_value_is_boundary none (fun _ => ItemResult.ok)
      3 5 3 1 none).1 (1, 3, 6) (by decide)).2

/-- C10 amended: a process_request call entered with the shutdown flag
already set returns False before reading the subtitle store, building a
request, or running the pipeline; but the scheduler does not record such
an index in the failed list: its collection loop checks the flag before
touching each result and breaks as soon as it is set, so the item is
skipped rather than counted as a failure. -/
theorem c10_shutdown_item_skipped_not_failed (beh res : ItemResult)
    (T : Option Nat) (idx : Nat) (rest : List (Nat × ItemResult))
    (st : RunState) (h : flagAt T st.checks = true) :
    processRequestModel true beh = (ItemResult.failed, 0) ∧
    collectLoop T ((idx, res) :: rest) st =
      { st with checks := st.checks + 1 } := by
  refine ⟨rfl, ?_⟩
  simp [collectLoop, h]

/-- C10 witness: with the flag set from the very first check, a pending
worker result for index 5 is dropped by the collection loop and the
early-returning worker reads nothing. -/
theorem c10_shutdown_item_skipped_not_failed_witness :
    processRequestModel true ItemResult.ok = (ItemResult.failed, 0) ∧
    collectLoop (some 0) [(5, ItemResult.failed)] { current := 1 } =
      { ({ current := 1 } : RunState) with
        checks := ({ current := 1 } : RunState).checks + 1 } :=
  c10_shutdown_item_skipped_not_failed ItemResult.ok ItemResult.failed
    (some 0) 5 [] { current := 1 } (by decide)

/-- C10 counterexample: in a run over one index whose flag becomes set
right after the batch is submitted, the worker for index 1 starts
process_request after the flag is set and returns False having performed
zero store reads, yet the scheduler's failed-index list stays empty: the
index is not recorded as failed, refuting the claim's conclusion. -/
theorem c10_counterexample_index_not_recorded :
    (runBatch (some 1) (fun _ => ItemResult.ok) 1 1 5 1 none).final.workerLog
        = [(1, ItemResult.failed, 0)] ∧
    (runBatch (some 1) (fun _ => ItemResult.ok) 1 1 5 1 none).final.failed
        = [] := by
  constructor
  · decide
  · decide

end LangGraphTranslator
